import Mathlib

/-!
Verification of the UNCP-Navigate waypoint route planner
(`src/backend/src/services/routing.service.ts`) and the boundary-layer
coordinate validator (`ValidationUtils.isValidCoordinates`).

JavaScript numbers are modelled by `ℝ` inside the planner (the claims under
scrutiny restrict attention to in-range coordinates, where no NaN or
Infinity arises except the `Infinity` sentinel of the nearest-neighbor scan,
modelled by `⊤ : WithTop ℝ`).  `Math.round` is Mathlib's `round`
(half rounds toward positive infinity, as in JavaScript).  The boundary
validator, which compares possibly-NaN inputs, is modelled over `JsNum`
(a rational or NaN) with JavaScript comparison semantics.
-/

namespace UNCPNavigate

/-- A geographic coordinate, `interface Coordinates` from the source. -/
structure Coordinates where
  lat : ℝ
  lng : ℝ

/-- The travel-mode enumeration `"walking" | "driving" | "cycling"`. -/
inductive TravelMode
  | walking
  | driving
  | cycling

/-- Degrees to radians: `toRadians(degrees) = degrees * (Math.PI / 180)`. -/
noncomputable def toRadians (degrees : ℝ) : ℝ :=
  degrees * (Real.pi / 180)

/-- JavaScript `Math.atan2(y, x)`, by the standard case analysis. -/
noncomputable def atan2 (y x : ℝ) : ℝ :=
  if 0 < x then Real.arctan (y / x)
  else if x < 0 then
    if 0 ≤ y then Real.arctan (y / x) + Real.pi
    else Real.arctan (y / x) - Real.pi
  else
    if 0 < y then Real.pi / 2
    else if y < 0 then -(Real.pi / 2)
    else 0

/-- Haversine distance in kilometers, `RoutingService.calculateDistance`,
with Earth radius 6371 km. -/
noncomputable def calculateDistance (coord1 coord2 : Coordinates) : ℝ :=
  let R : ℝ := 6371
  let dLat := toRadians (coord2.lat - coord1.lat)
  let dLng := toRadians (coord2.lng - coord1.lng)
  let a := Real.sin (dLat / 2) * Real.sin (dLat / 2) +
    Real.cos (toRadians coord1.lat) * Real.cos (toRadians coord2.lat) *
      Real.sin (dLng / 2) * Real.sin (dLng / 2)
  let c := 2 * atan2 (Real.sqrt a) (Real.sqrt (1 - a))
  R * c

/-- The fixed mode-speed table of `RoutingService.estimateDuration` (km/h). -/
noncomputable def speeds : TravelMode → ℝ
  | .walking => 5
  | .cycling => 15
  | .driving => 30

/-- Whole-second travel time, `RoutingService.estimateDuration`, from the
Haversine distance and the mode speed. -/
noncomputable def estimateDuration (origin destination : Coordinates)
    (mode : TravelMode) : ℤ :=
  let distance := calculateDistance origin destination
  round (distance / speeds mode * 3600)

lemma atan2_nonneg {y : ℝ} (x : ℝ) (hy : 0 ≤ y) : 0 ≤ atan2 y x := by
  unfold atan2
  split_ifs with h1 h2 h3 h4
  · have hq : (0 : ℝ) ≤ y / x := div_nonneg hy h1.le
    have := Real.arctan_strictMono.monotone hq
    rwa [Real.arctan_zero] at this
  · have h := Real.neg_pi_div_two_lt_arctan (y / x)
    have hp := Real.pi_pos
    linarith
  · have hp := Real.pi_pos
    linarith
  · linarith
  · exact le_refl 0

lemma calculateDistance_nonneg (A B : Coordinates) :
    0 ≤ calculateDistance A B := by
  simp only [calculateDistance]
  have h := atan2_nonneg
    (Real.sqrt (1 -
      (Real.sin (toRadians (B.lat - A.lat) / 2) *
          Real.sin (toRadians (B.lat - A.lat) / 2) +
        Real.cos (toRadians A.lat) * Real.cos (toRadians B.lat) *
          Real.sin (toRadians (B.lng - A.lng) / 2) *
          Real.sin (toRadians (B.lng - A.lng) / 2))))
    (Real.sqrt_nonneg
      (Real.sin (toRadians (B.lat - A.lat) / 2) *
          Real.sin (toRadians (B.lat - A.lat) / 2) +
        Real.cos (toRadians A.lat) * Real.cos (toRadians B.lat) *
          Real.sin (toRadians (B.lng - A.lng) / 2) *
          Real.sin (toRadians (B.lng - A.lng) / 2)))
  linarith

lemma calculateDistance_self (A : Coordinates) :
    calculateDistance A A = 0 := by
  simp only [calculateDistance, toRadians, atan2]
  norm_num [Real.arctan_zero]

lemma round_mono_le {x y : ℝ} (h : x ≤ y) : round x ≤ round y := by
  rw [round_eq, round_eq]
  exact Int.floor_le_floor (by linarith)

/-- C3: the estimated duration is `round(distanceKm / modeSpeedKmh * 3600)`
whole seconds, with speeds walking=5, cycling=15, driving=30 km/h. -/
theorem duration_is_rounded_distance_over_speed (o d : Coordinates) :
    estimateDuration o d .walking = round (calculateDistance o d / 5 * 3600) ∧
    estimateDuration o d .cycling = round (calculateDistance o d / 15 * 3600) ∧
    estimateDuration o d .driving = round (calculateDistance o d / 30 * 3600) := by
  refine ⟨rfl, rfl, rfl⟩

/-- C7: a segment from a coordinate to itself has distance 0 and
duration 0, for every mode. -/
theorem segment_self_zero (A : Coordinates) (mode : TravelMode) :
    calculateDistance A A = 0 ∧ estimateDuration A A mode = 0 := by
  refine ⟨calculateDistance_self A, ?_⟩
  simp only [estimateDuration, calculateDistance_self A]
  norm_num

/-- C8: the Haversine distance is symmetric in its two arguments. -/
theorem calculateDistance_symm (A B : Coordinates) :
    calculateDistance A B = calculateDistance B A := by
  simp only [calculateDistance]
  have ha :
      Real.sin (toRadians (B.lat - A.lat) / 2) *
          Real.sin (toRadians (B.lat - A.lat) / 2) +
        Real.cos (toRadians A.lat) * Real.cos (toRadians B.lat) *
          Real.sin (toRadians (B.lng - A.lng) / 2) *
          Real.sin (toRadians (B.lng - A.lng) / 2)
      = Real.sin (toRadians (A.lat - B.lat) / 2) *
          Real.sin (toRadians (A.lat - B.lat) / 2) +
        Real.cos (toRadians B.lat) * Real.cos (toRadians A.lat) *
          Real.sin (toRadians (A.lng - B.lng) / 2) *
          Real.sin (toRadians (A.lng - B.lng) / 2) := by
    have h1 : toRadians (B.lat - A.lat) = -toRadians (A.lat - B.lat) := by
      unfold toRadians; ring
    have h2 : toRadians (B.lng - A.lng) = -toRadians (A.lng - B.lng) := by
      unfold toRadians; ring
    rw [h1, h2, neg_div, neg_div, Real.sin_neg, Real.sin_neg]; ring
  rw [ha]

/-- C9: driving duration never exceeds walking duration, and in the
zero-distance case both are 0. -/
theorem driving_le_walking (o d : Coordinates) :
    estimateDuration o d .driving ≤ estimateDuration o d .walking ∧
      (calculateDistance o d = 0 →
        estimateDuration o d .driving = 0 ∧ estimateDuration o d .walking = 0) := by
  constructor
  · simp only [estimateDuration, speeds]
    apply round_mono_le
    have h0 := calculateDistance_nonneg o d
    have e1 : calculateDistance o d / 30 * 3600 = 120 * calculateDistance o d := by
      ring
    have e2 : calculateDistance o d / 5 * 3600 = 720 * calculateDistance o d := by
      ring
    rw [e1, e2]
    linarith
  · intro h
    simp only [estimateDuration, h]
    norm_num

/-- Witness for C9 at a concrete zero-distance pair, discharging the
zero-distance hypothesis of the second conjunct. -/
theorem driving_le_walking_witness :
    estimateDuration ⟨0, 0⟩ ⟨0, 0⟩ .driving ≤ estimateDuration ⟨0, 0⟩ ⟨0, 0⟩ .walking ∧
      (estimateDuration ⟨0, 0⟩ ⟨0, 0⟩ .driving = 0 ∧
        estimateDuration ⟨0, 0⟩ ⟨0, 0⟩ .walking = 0) :=
  ⟨(driving_le_walking ⟨0, 0⟩ ⟨0, 0⟩).1,
    (driving_le_walking ⟨0, 0⟩ ⟨0, 0⟩).2 (calculateDistance_self ⟨0, 0⟩)⟩

/-- A JavaScript number as seen by the boundary validator: either NaN or a
finite value (modelled as a rational). -/
inductive JsNum
  | nan
  | fin (q : ℚ)

/-- JavaScript `>=` on numbers: any comparison involving NaN is false. -/
def jsGe : JsNum → JsNum → Bool
  | .fin x, .fin y => decide (x ≥ y)
  | _, _ => false

/-- JavaScript `<=` on numbers: any comparison involving NaN is false. -/
def jsLe : JsNum → JsNum → Bool
  | .fin x, .fin y => decide (x ≤ y)
  | _, _ => false

/-- The check `typeof v === "number"`: true for every `JsNum` (NaN included). -/
def typeofNumber : JsNum → Bool := fun _ => true

/-- JavaScript `isNaN` restricted to numbers. -/
def jsIsNaN : JsNum → Bool
  | .nan => true
  | .fin _ => false

/-- The validator `ValidationUtils.isValidCoordinates` from `src/backend/src/utils/validation.ts`. -/
def isValidCoordinates (lat lng : JsNum) : Bool :=
  typeofNumber lat &&
  typeofNumber lng &&
  jsGe lat (.fin (-90)) &&
  jsLe lat (.fin 90) &&
  jsGe lng (.fin (-180)) &&
  jsLe lng (.fin 180) &&
  !jsIsNaN lat &&
  !jsIsNaN lng

/-- C10: `isValidCoordinates` accepts exactly the finite numbers with
latitude in [-90, 90] and longitude in [-180, 180]; the boundary values
are accepted and NaN inputs are always rejected. -/
theorem isValidCoordinates_characterization :
    (∀ lat lng : JsNum, isValidCoordinates lat lng = true ↔
      ∃ a b : ℚ, lat = .fin a ∧ lng = .fin b ∧
        -90 ≤ a ∧ a ≤ 90 ∧ -180 ≤ b ∧ b ≤ 180) ∧
    isValidCoordinates (.fin (-90)) (.fin (-180)) = true ∧
    isValidCoordinates (.fin 90) (.fin 180) = true ∧
    (∀ lng : JsNum, isValidCoordinates .nan lng = false) ∧
    (∀ lat : JsNum, isValidCoordinates lat .nan = false) := by
  refine ⟨?_, by decide, by decide, ?_, ?_⟩
  · intro lat lng
    cases lat with
    | nan => simp [isValidCoordinates, jsGe, typeofNumber]
    | fin a =>
      cases lng with
      | nan => simp [isValidCoordinates, jsGe, jsLe, jsIsNaN, typeofNumber]
      | fin b =>
        simp [isValidCoordinates, jsGe, jsLe, jsIsNaN, typeofNumber,
          ge_iff_le, and_assoc]
  · intro lng
    cases lng <;> simp [isValidCoordinates, jsGe, jsLe, jsIsNaN, typeofNumber]
  · intro lat
    cases lat <;> simp [isValidCoordinates, jsGe, jsLe, jsIsNaN, typeofNumber]

/-- The body of the `unvisited.forEach((waypointIndex, index) => ...)` scan in
`nearestNeighborOptimization`: fold over the unvisited list, carrying the
running `(nearest, nearestDistance)` pair (the scan position `idx` mirrors the
`index` callback argument; `nearestDistance` starts at `Infinity = ⊤`). -/
noncomputable def scanNearest (dcur : ℕ → ℝ) :
    List ℕ → ℕ → ℕ × WithTop ℝ → ℕ × WithTop ℝ
  | [], _, acc => acc
  | j :: rest, idx, acc =>
    scanNearest dcur rest (idx + 1)
      (if (dcur j : WithTop ℝ) < acc.2 then (idx, (dcur j : WithTop ℝ)) else acc)

/-- The call `this.calculateDistance(waypoints[current], waypoints[waypointIndex])`:
the Haversine distance between two waypoints addressed by index. -/
noncomputable def wpDist (w : List Coordinates) (x y : ℕ) : ℝ :=
  calculateDistance (w.getD x ⟨0, 0⟩) (w.getD y ⟨0, 0⟩)

/-- The `while (unvisited.length > 0)` loop of `nearestNeighborOptimization`:
repeatedly scan the unvisited list from the current waypoint, splice out the
chosen scan position and append the chosen original index.  `fuel` bounds the
number of iterations; it is instantiated with the initial length of the
unvisited list, which decreases by one per iteration. -/
noncomputable def nnLoop (w : List Coordinates) : ℕ → ℕ → List ℕ → List ℕ
  | 0, _, _ => []
  | _ + 1, _, [] => []
  | fuel + 1, current, j :: rest =>
    let u := j :: rest
    let s := scanNearest (wpDist w current) u 0 (0, ⊤)
    let next := u.getD s.1 0
    next :: nnLoop w fuel next (u.eraseIdx s.1)

/-- The optimizer `RoutingService.nearestNeighborOptimization`: start the route with index 0
(`unvisited.shift()`), then run the greedy loop. -/
noncomputable def nearestNeighborOptimization (w : List Coordinates) : List ℕ :=
  match List.range w.length with
  | [] => []
  | first :: rest => first :: nnLoop w rest.length first rest

/-- One entry of the `segments` array built by `RoutingService.optimizeRoute`. -/
structure Segment where
  fromPt : Coordinates
  toPt : Coordinates
  distance : ℝ
  duration : ℤ

/-- The `OptimizedRoute` result record of `RoutingService.optimizeRoute`. -/
structure OptimizedRoute where
  waypoints : List Coordinates
  optimizedOrder : List ℕ
  totalDistance : ℝ
  totalDuration : ℤ
  mode : TravelMode
  segments : List Segment

/-- The try-block body of `RoutingService.optimizeRoute` (lines 146-178):
reject fewer than 2 waypoints with the guard error, compute the
nearest-neighbor order, derive one segment per consecutive pair in that order
(distance in meters, duration in seconds), and accumulate the totals. -/
noncomputable def optimizeRouteTry (w : List Coordinates) (mode : TravelMode) :
    Except String OptimizedRoute :=
  if w.length < 2 then .error "At least 2 waypoints are required"
  else
    let optimizedOrder := nearestNeighborOptimization w
    let segments := (List.range (optimizedOrder.length - 1)).map fun i =>
      let f := w.getD (optimizedOrder.getD i 0) ⟨0, 0⟩
      let t := w.getD (optimizedOrder.getD (i + 1) 0) ⟨0, 0⟩
      ({ fromPt := f, toPt := t,
         distance := calculateDistance f t * 1000,
         duration := estimateDuration f t mode } : Segment)
    .ok { waypoints := w, optimizedOrder := optimizedOrder,
          totalDistance := segments.foldl (fun acc s => acc + s.distance) 0,
          totalDuration := segments.foldl (fun acc s => acc + s.duration) 0,
          mode := mode, segments := segments }

/-- The full method `RoutingService.optimizeRoute`: its catch (lines 179-182)
intercepts any error thrown inside the try block — including its own
waypoint-count guard — logs it, and rethrows the generic
`Error("Failed to optimize route")`, which is the error the caller sees. -/
noncomputable def optimizeRoute (w : List Coordinates) (mode : TravelMode) :
    Except String OptimizedRoute :=
  match optimizeRouteTry w mode with
  | .ok r => .ok r
  | .error _ => .error "Failed to optimize route"

/-- The mode validator `ValidationUtils.isValidRouteMode` from
`src/backend/src/utils/validation.ts`. -/
def isValidRouteMode (mode : String) : Bool :=
  ["walking", "driving", "cycling"].contains mode

/-- A waypoint as parsed from the request body by the controller: a pair of
JavaScript numbers. -/
structure ReqWaypoint where
  lat : JsNum
  lng : JsNum

/-- Reading a finite `JsNum` as the real number it denotes.  The NaN case
(mapped to 0) is unreachable behind `isValidCoordinates`, which rejects
NaN. -/
noncomputable def jsNumVal : JsNum → ℝ
  | .nan => 0
  | .fin q => (q : ℝ)

/-- The three response shapes of `RoutesController.optimizeRoute`: a 400 with
`{message, error}`, a 200 with the optimized route, or a 500 with
`{message, error}`. -/
inductive ControllerResponse
  | badRequest (message error : String)
  | okRoute (r : OptimizedRoute)
  | serverError (message error : String)

/-- The boundary layer `RoutesController.optimizeRoute`
(`routes.controller.ts` lines 89-149): reject a waypoint list outside
[2, 10], then the first waypoint with invalid coordinates, then an invalid
mode, and only then invoke the routing service; a service error becomes the
500 response. -/
noncomputable def optimizeRouteController (waypoints : List ReqWaypoint)
    (mode : String) : ControllerResponse :=
  if waypoints.length < 2 ∨ 10 < waypoints.length then
    .badRequest "Waypoints must be an array with 2-10 locations"
      "INVALID_WAYPOINTS"
  else
    match waypoints.findIdx? (fun wp => !(isValidCoordinates wp.lat wp.lng)) with
    | some i =>
      .badRequest ("Invalid coordinates for waypoint " ++ toString i)
        "INVALID_WAYPOINT_COORDINATES"
    | none =>
      if !(isValidRouteMode mode) then
        .badRequest "Invalid route mode. Must be walking, driving, or cycling"
          "INVALID_ROUTE_MODE"
      else
        match optimizeRoute
            (waypoints.map fun wp => ⟨jsNumVal wp.lat, jsNumVal wp.lng⟩)
            (if mode = "driving" then .driving
             else if mode = "cycling" then .cycling
             else .walking) with
        | .ok r => .okRoute r
        | .error _ =>
          .serverError "Failed to optimize route" "ROUTE_OPTIMIZATION_ERROR"

/-- C5 counterexample: contrary to "the component raises no error of its own
on a precondition violation", at the empty waypoint list `optimizeRoute`
raises an error of its own — the guard error caught by its catch and
rewrapped as the generic failure. -/
theorem optimizeRoute_error_on_empty :
    optimizeRoute [] .walking = .error "Failed to optimize route" := by
  rfl

/-- C5 amended: the boundary layer does reject a waypoint list of length
n < 2 before the planner is invoked, but the planner does not merely assume
the precondition — `optimizeRoute` itself checks the waypoint count, its
guard throws, and its catch rewraps the guard error, so on fewer than 2
waypoints the component raises its own `Error("Failed to optimize route")`. -/
theorem short_input_rejected_by_boundary_and_component :
    (∀ (wps : List ReqWaypoint) (mode : String), wps.length < 2 →
      optimizeRouteController wps mode =
        .badRequest "Waypoints must be an array with 2-10 locations"
          "INVALID_WAYPOINTS") ∧
    (∀ (w : List Coordinates) (mode : TravelMode), w.length < 2 →
      optimizeRoute w mode = .error "Failed to optimize route") := by
  constructor
  · intro wps mode h
    simp only [optimizeRouteController, if_pos (Or.inl h)]
  · intro w mode h
    simp [optimizeRoute, optimizeRouteTry, if_pos h]

/-- Witness for the amended C5 theorem at the empty list, for both the
boundary layer and the component. -/
theorem short_input_rejected_by_boundary_and_component_witness :
    ([] : List ReqWaypoint).length < 2 ∧
      optimizeRouteController [] "walking" =
        .badRequest "Waypoints must be an array with 2-10 locations"
          "INVALID_WAYPOINTS" ∧
      optimizeRoute ([] : List Coordinates) .cycling =
        .error "Failed to optimize route" :=
  ⟨by decide,
    short_input_rejected_by_boundary_and_component.1 [] "walking" (by decide),
    short_input_rejected_by_boundary_and_component.2 [] .cycling (by decide)⟩

lemma range_two : List.range 2 = [0, 1] := by decide

/-- C6: with exactly two waypoints the order short-circuits to `[0, 1]` and
there is exactly one segment. -/
theorem two_waypoints_trivial_order (w : List Coordinates) (mode : TravelMode)
    (h : w.length = 2) :
    ∃ r, optimizeRoute w mode = .ok r ∧
      r.optimizedOrder = [0, 1] ∧ r.segments.length = 1 := by
  obtain ⟨a, b, rfl⟩ := List.length_eq_two.mp h
  have horder : nearestNeighborOptimization [a, b] = [0, 1] := by
    simp [nearestNeighborOptimization, range_two, nnLoop, scanNearest,
      WithTop.coe_lt_top, List.getD, List.eraseIdx]
  simp only [optimizeRoute, optimizeRouteTry, List.length_cons, List.length_nil]
  norm_num [horder]

/-- Witness for C6 at a concrete two-waypoint list. -/
theorem two_waypoints_trivial_order_witness :
    ∃ r, optimizeRoute [⟨0, 0⟩, ⟨1, 1⟩] .walking = .ok r ∧
      r.optimizedOrder = [0, 1] ∧ r.segments.length = 1 :=
  two_waypoints_trivial_order [⟨0, 0⟩, ⟨1, 1⟩] .walking (by rfl)

/-- Characterization of the `forEach` scan: either no candidate improved on
the incoming best distance `nd`, or the scan returns the first scan position
achieving the strict minimum (strictly smaller than every earlier candidate,
no larger than every later one). -/
lemma scanNearest_spec (dcur : ℕ → ℝ) (l : List ℕ) :
    ∀ (idx a : ℕ) (nd : WithTop ℝ),
    (scanNearest dcur l idx (a, nd) = (a, nd) ∧
      ∀ j ∈ l, nd ≤ (dcur j : WithTop ℝ)) ∨
    (∃ k, ∃ hk : k < l.length,
      scanNearest dcur l idx (a, nd) = (idx + k, (dcur l[k] : WithTop ℝ)) ∧
      (dcur l[k] : WithTop ℝ) < nd ∧
      (∀ m, ∀ hm : m < l.length, m < k → dcur l[k] < dcur l[m]) ∧
      (∀ m, ∀ hm : m < l.length, k < m → dcur l[k] ≤ dcur l[m])) := by
  induction l with
  | nil =>
    intro idx a nd
    left
    exact ⟨rfl, by simp⟩
  | cons j rest ih =>
    intro idx a nd
    by_cases hc : (dcur j : WithTop ℝ) < nd
    · have heq : scanNearest dcur (j :: rest) idx (a, nd)
          = scanNearest dcur rest (idx + 1) (idx, (dcur j : WithTop ℝ)) := by
        simp [scanNearest, hc]
      rcases ih (idx + 1) idx (dcur j) with ⟨h1, h2⟩ | ⟨k, hk, h1, h2, h3, h4⟩
      · right
        refine ⟨0, by simp, ?_, ?_, ?_, ?_⟩
        · rw [heq, h1]
          simp
        · simpa using hc
        · intro m hm hm0
          exact absurd hm0 (Nat.not_lt_zero m)
        · intro m hm h0m
          obtain ⟨m', rfl⟩ : ∃ m', m = m' + 1 := ⟨m - 1, by omega⟩
          have hm' : m' < rest.length := by simpa using hm
          simp only [List.getElem_cons_zero, List.getElem_cons_succ]
          exact WithTop.coe_le_coe.mp (h2 _ (List.getElem_mem hm'))
      · right
        have hk1 : k + 1 < (j :: rest).length := by
          simp only [List.length_cons]
          omega
        refine ⟨k + 1, hk1, ?_, ?_, ?_, ?_⟩
        · have harith : idx + 1 + k = idx + (k + 1) := by omega
          rw [heq, h1, harith]
          simp only [List.getElem_cons_succ]
        · simp only [List.getElem_cons_succ]
          exact h2.trans hc
        · intro m hm hmk
          simp only [List.getElem_cons_succ]
          cases m with
          | zero =>
            simp only [List.getElem_cons_zero]
            exact WithTop.coe_lt_coe.mp h2
          | succ m' =>
            simp only [List.getElem_cons_succ]
            exact h3 m' (by simpa using hm) (by omega)
        · intro m hm hkm
          cases m with
          | zero => omega
          | succ m' =>
            simp only [List.getElem_cons_succ]
            exact h4 m' (by simpa using hm) (by omega)
    · have hle : nd ≤ (dcur j : WithTop ℝ) := not_lt.mp hc
      have heq : scanNearest dcur (j :: rest) idx (a, nd)
          = scanNearest dcur rest (idx + 1) (a, nd) := by
        simp [scanNearest, hc]
      rcases ih (idx + 1) a nd with ⟨h1, h2⟩ | ⟨k, hk, h1, h2, h3, h4⟩
      · left
        refine ⟨heq.trans h1, ?_⟩
        intro x hx
        rcases List.mem_cons.mp hx with rfl | hx'
        · exact hle
        · exact h2 x hx'
      · right
        have hk1 : k + 1 < (j :: rest).length := by
          simp only [List.length_cons]
          omega
        refine ⟨k + 1, hk1, ?_, ?_, ?_, ?_⟩
        · have harith : idx + 1 + k = idx + (k + 1) := by omega
          rw [heq, h1, harith]
          simp only [List.getElem_cons_succ]
        · simp only [List.getElem_cons_succ]
          exact h2
        · intro m hm hmk
          simp only [List.getElem_cons_succ]
          cases m with
          | zero =>
            simp only [List.getElem_cons_zero]
            exact WithTop.coe_lt_coe.mp (h2.trans_le hle)
          | succ m' =>
            simp only [List.getElem_cons_succ]
            exact h3 m' (by simpa using hm) (by omega)
        · intro m hm hkm
          cases m with
          | zero => omega
          | succ m' =>
            simp only [List.getElem_cons_succ]
            exact h4 m' (by simpa using hm) (by omega)

/-- For a nonempty unvisited list, the scan (started at position 0 with best
distance `Infinity`) selects the first scan position achieving the minimum
distance from the current waypoint. -/
lemma scanNearest_choice (dcur : ℕ → ℝ) (l : List ℕ) (hl : l ≠ []) :
    ∃ k, ∃ hk : k < l.length,
      (scanNearest dcur l 0 (0, ⊤)).1 = k ∧
      (∀ m, ∀ hm : m < l.length, m < k → dcur l[k] < dcur l[m]) ∧
      (∀ m, ∀ hm : m < l.length, k < m → dcur l[k] ≤ dcur l[m]) := by
  rcases scanNearest_spec dcur l 0 0 ⊤ with ⟨h1, h2⟩ | ⟨k, hk, h1, h2, h3, h4⟩
  · obtain ⟨x, hx⟩ := List.exists_mem_of_ne_nil l hl
    exact absurd (h2 x hx) (WithTop.not_top_le_coe (dcur x))
  · refine ⟨k, hk, ?_, h3, h4⟩
    rw [h1]
    simp

/-- The greedy ordering rule of the spec, as a relation: from `current`, the
next output index is an unvisited candidate that is strictly closer to the
current waypoint than every candidate earlier in the scan of the unvisited
list (first-seen wins ties) and no farther than every later candidate; the
chosen candidate is then removed from the unvisited list.  `GreedyOrder d
current u o` states that `o` visits all of `u` by this rule starting from
`current`, with distances `d`. -/
inductive GreedyOrder (d : ℕ → ℕ → ℝ) : ℕ → List ℕ → List ℕ → Prop
  | nil (current : ℕ) : GreedyOrder d current [] []
  | cons (current j : ℕ) (pre post rest : List ℕ) :
      (∀ k ∈ pre, d current j < d current k) →
      (∀ k ∈ post, d current j ≤ d current k) →
      GreedyOrder d j (pre ++ post) rest →
      GreedyOrder d current (pre ++ j :: post) (j :: rest)

/-- Constructor form of `GreedyOrder.cons` stated through equalities, to avoid
dependent rewriting in the loop proof. -/
lemma greedy_cons_of_eq {d : ℕ → ℕ → ℝ} {current j : ℕ}
    {pre post rest u o : List ℕ}
    (hu : u = pre ++ j :: post) (ho : o = j :: rest)
    (h1 : ∀ k ∈ pre, d current j < d current k)
    (h2 : ∀ k ∈ post, d current j ≤ d current k)
    (hrec : GreedyOrder d j (pre ++ post) rest) :
    GreedyOrder d current u o := by
  subst hu
  subst ho
  exact GreedyOrder.cons current j pre post rest h1 h2 hrec

/-- The nearest-neighbor loop follows the greedy ordering rule. -/
lemma nnLoop_greedy (w : List Coordinates) :
    ∀ (fuel : ℕ) (u : List ℕ) (current : ℕ), u.length ≤ fuel →
      GreedyOrder (wpDist w) current u (nnLoop w fuel current u) := by
  intro fuel
  induction fuel with
  | zero =>
    intro u current h
    obtain rfl : u = [] := List.length_eq_zero.mp (Nat.le_zero.mp h)
    exact .nil current
  | succ fuel ih =>
    intro u current h
    match u with
    | [] => exact .nil current
    | j :: rest =>
      obtain ⟨k, hk, hfst, h3, h4⟩ :=
        scanNearest_choice (wpDist w current) (j :: rest) (by simp)
      have hstep : nnLoop w (fuel + 1) current (j :: rest)
          = (j :: rest).getD ((scanNearest (wpDist w current) (j :: rest) 0 (0, ⊤)).1) 0 ::
            nnLoop w fuel
              ((j :: rest).getD ((scanNearest (wpDist w current) (j :: rest) 0 (0, ⊤)).1) 0)
              ((j :: rest).eraseIdx ((scanNearest (wpDist w current) (j :: rest) 0 (0, ⊤)).1)) :=
        rfl
      rw [hstep, hfst]
      have hgetD : (j :: rest).getD k 0 = (j :: rest)[k] :=
        List.getD_eq_getElem (j :: rest) 0 hk
      rw [hgetD]
      have hu : j :: rest
          = (j :: rest).take k ++ (j :: rest)[k] :: (j :: rest).drop (k + 1) := by
        conv_lhs => rw [← List.take_append_drop k (j :: rest)]
        rw [List.drop_eq_getElem_cons hk]
      have herase : (j :: rest).eraseIdx k
          = (j :: rest).take k ++ (j :: rest).drop (k + 1) :=
        List.eraseIdx_eq_take_drop_succ (j :: rest) k
      rw [herase]
      refine greedy_cons_of_eq hu rfl ?_ ?_ ?_
      · intro x hx
        obtain ⟨m, hm, hxm⟩ := List.mem_iff_getElem.mp hx
        have hmk : m < k := by
          have := hm
          rw [List.length_take] at this
          omega
        have hml : m < (j :: rest).length := by omega
        have hxe : x = (j :: rest)[m] := by
          rw [← hxm]
          exact (List.getElem_take (j :: rest)).symm ▸ rfl
        rw [hxe]
        exact h3 m hml hmk
      · intro x hx
        obtain ⟨m, hm, hxm⟩ := List.mem_iff_getElem.mp hx
        have hml : k + 1 + m < (j :: rest).length := by
          have := hm
          rw [List.length_drop] at this
          omega
        have hxe : x = (j :: rest)[k + 1 + m] := by
          rw [← hxm]
          exact List.getElem_drop (j :: rest)
        rw [hxe]
        exact h4 (k + 1 + m) hml (by omega)
      · apply ih
        have hlen : ((j :: rest).take k ++ (j :: rest).drop (k + 1)).length + 1
            = (j :: rest).length := by
          rw [← herase]
          exact List.length_eraseIdx_add_one hk
        simp only [List.length_cons] at h hlen
        omega

/-- A greedy ordering is a permutation of the unvisited list. -/
lemma GreedyOrder.perm {d : ℕ → ℕ → ℝ} {c : ℕ} {u o : List ℕ}
    (h : GreedyOrder d c u o) : o.Perm u := by
  induction h with
  | nil _ => exact List.Perm.refl []
  | cons current j pre post rest h1 h2 hrec ih =>
    exact (ih.cons j).trans List.perm_middle.symm

/-- The order returned by `nearestNeighborOptimization` is a permutation of
the index range. -/
lemma nearestNeighborOptimization_perm (w : List Coordinates) :
    (nearestNeighborOptimization w).Perm (List.range w.length) := by
  unfold nearestNeighborOptimization
  cases hr : List.range w.length with
  | nil => exact List.Perm.refl []
  | cons first rest =>
    exact ((nnLoop_greedy w rest.length rest first (le_refl _)).perm).cons first

/-- For a nonempty waypoint list the order starts with index 0 followed by
the greedy loop over the remaining index range. -/
lemma nno_eq_cons (w : List Coordinates) (h : 1 ≤ w.length) :
    ∃ rest, List.range w.length = 0 :: rest ∧
      nearestNeighborOptimization w = 0 :: nnLoop w rest.length 0 rest := by
  obtain ⟨m, hm⟩ : ∃ m, w.length = m + 1 := ⟨w.length - 1, by omega⟩
  refine ⟨List.map Nat.succ (List.range m), ?_, ?_⟩
  · rw [hm, List.range_succ_eq_map]
  · unfold nearestNeighborOptimization
    rw [hm, List.range_succ_eq_map]

lemma foldl_add_eq_sum {α : Type _} {M : Type _} [AddCommMonoid M]
    (f : α → M) (l : List α) :
    l.foldl (fun acc s => acc + f s) 0 = (l.map f).sum := by
  rw [List.sum_eq_foldl, List.foldl_map]

/-- C1: for 2 to 10 waypoints and any mode, the returned order is a
permutation of `{0, ..., n-1}` (each index exactly once) whose first
element is 0. -/
theorem optimizedOrder_permutation_head_zero (w : List Coordinates)
    (mode : TravelMode) (h2 : 2 ≤ w.length) (h10 : w.length ≤ 10) :
    ∃ r, optimizeRoute w mode = .ok r ∧
      r.optimizedOrder.Perm (List.range w.length) ∧
      r.optimizedOrder.head? = some 0 := by
  have hlt : ¬ w.length < 2 := by omega
  simp only [optimizeRoute, optimizeRouteTry, if_neg hlt]
  refine ⟨_, rfl, ?_, ?_⟩
  · exact nearestNeighborOptimization_perm w
  · obtain ⟨rest, hr, hno⟩ := nno_eq_cons w (by omega)
    show (nearestNeighborOptimization w).head? = some 0
    rw [hno]
    rfl

/-- Witness for C1 at a concrete three-waypoint list. -/
theorem optimizedOrder_permutation_head_zero_witness :
    ∃ r, optimizeRoute [⟨0, 0⟩, ⟨0, 1⟩, ⟨1, 0⟩] .driving = .ok r ∧
      r.optimizedOrder.Perm
        (List.range ([⟨0, 0⟩, ⟨0, 1⟩, ⟨1, 0⟩] : List Coordinates).length) ∧
      r.optimizedOrder.head? = some 0 :=
  optimizedOrder_permutation_head_zero [⟨0, 0⟩, ⟨0, 1⟩, ⟨1, 0⟩] .driving
    (by norm_num) (by norm_num)

/-- C2: for 2 to 10 waypoints with in-range coordinates, the produced
ordering follows the nearest-neighbor greedy rule: it starts at index 0 and,
at each step, picks an unvisited candidate strictly closer to the current
waypoint than every earlier candidate in the scan of the unvisited list
(so exact ties go to the earliest scan position) and no farther than every
later one. -/
theorem optimizedOrder_greedy_rule (w : List Coordinates) (mode : TravelMode)
    (h2 : 2 ≤ w.length) (h10 : w.length ≤ 10)
    (hrange : ∀ c ∈ w, -90 ≤ c.lat ∧ c.lat ≤ 90 ∧ -180 ≤ c.lng ∧ c.lng ≤ 180) :
    ∃ rest, nearestNeighborOptimization w = 0 :: rest ∧
      GreedyOrder (wpDist w) 0 ((List.range w.length).drop 1) rest := by
  obtain ⟨rest0, hr, hno⟩ := nno_eq_cons w (by omega)
  refine ⟨_, hno, ?_⟩
  have hd : (List.range w.length).drop 1 = rest0 := by
    rw [hr, List.drop_one, List.tail_cons]
  exact hd ▸ nnLoop_greedy w rest0.length rest0 0 (le_refl _)

/-- Witness for C2 at a concrete two-waypoint list. -/
theorem optimizedOrder_greedy_rule_witness :
    ∃ rest, nearestNeighborOptimization [⟨0, 0⟩, ⟨0, 1⟩] = 0 :: rest ∧
      GreedyOrder (wpDist [⟨0, 0⟩, ⟨0, 1⟩]) 0
        ((List.range ([⟨0, 0⟩, ⟨0, 1⟩] : List Coordinates).length).drop 1) rest :=
  optimizedOrder_greedy_rule [⟨0, 0⟩, ⟨0, 1⟩] .walking (by norm_num) (by norm_num)
    (by intro c hc; fin_cases hc <;> norm_num)

/-- C4: for 2 to 10 waypoints, the result holds exactly `n - 1` segments,
segment `i` joining `waypoints[order[i]]` to `waypoints[order[i+1]]` with
Haversine distance (in meters) and mode duration, and the two totals are the
sums of the per-segment values. -/
theorem segments_consecutive_and_totals (w : List Coordinates)
    (mode : TravelMode) (h2 : 2 ≤ w.length) (h10 : w.length ≤ 10) :
    ∃ r, optimizeRoute w mode = .ok r ∧
      r.segments.length = w.length - 1 ∧
      (∀ i, ∀ hi : i < r.segments.length,
        r.segments[i] =
          ({ fromPt := w.getD (r.optimizedOrder.getD i 0) ⟨0, 0⟩,
             toPt := w.getD (r.optimizedOrder.getD (i + 1) 0) ⟨0, 0⟩,
             distance := calculateDistance (w.getD (r.optimizedOrder.getD i 0) ⟨0, 0⟩)
               (w.getD (r.optimizedOrder.getD (i + 1) 0) ⟨0, 0⟩) * 1000,
             duration := estimateDuration (w.getD (r.optimizedOrder.getD i 0) ⟨0, 0⟩)
               (w.getD (r.optimizedOrder.getD (i + 1) 0) ⟨0, 0⟩) mode } : Segment)) ∧
      r.totalDistance = (r.segments.map Segment.distance).sum ∧
      r.totalDuration = (r.segments.map Segment.duration).sum := by
  have hlt : ¬ w.length < 2 := by omega
  have hlen : (nearestNeighborOptimization w).length = w.length :=
    (nearestNeighborOptimization_perm w).length_eq.trans (List.length_range _)
  simp only [optimizeRoute, optimizeRouteTry, if_neg hlt]
  refine ⟨_, rfl, ?_, ?_, ?_, ?_⟩
  · show ((List.range ((nearestNeighborOptimization w).length - 1)).map _).length
      = w.length - 1
    rw [List.length_map, List.length_range, hlen]
  · intro i hi
    simp only [List.getElem_map, List.getElem_range]
  · exact foldl_add_eq_sum Segment.distance _
  · exact foldl_add_eq_sum Segment.duration _

/-- Witness for C4 at a concrete two-waypoint list. -/
theorem segments_consecutive_and_totals_witness :
    ∃ r, optimizeRoute [⟨0, 0⟩, ⟨0, 1⟩] .cycling = .ok r ∧
      r.segments.length = ([⟨0, 0⟩, ⟨0, 1⟩] : List Coordinates).length - 1 ∧
      (∀ i, ∀ hi : i < r.segments.length,
        r.segments[i] =
          ({ fromPt := ([⟨0, 0⟩, ⟨0, 1⟩] : List Coordinates).getD
               (r.optimizedOrder.getD i 0) ⟨0, 0⟩,
             toPt := ([⟨0, 0⟩, ⟨0, 1⟩] : List Coordinates).getD
               (r.optimizedOrder.getD (i + 1) 0) ⟨0, 0⟩,
             distance := calculateDistance
               (([⟨0, 0⟩, ⟨0, 1⟩] : List Coordinates).getD (r.optimizedOrder.getD i 0) ⟨0, 0⟩)
               (([⟨0, 0⟩, ⟨0, 1⟩] : List Coordinates).getD (r.optimizedOrder.getD (i + 1) 0) ⟨0, 0⟩)
               * 1000,
             duration := estimateDuration
               (([⟨0, 0⟩, ⟨0, 1⟩] : List Coordinates).getD (r.optimizedOrder.getD i 0) ⟨0, 0⟩)
               (([⟨0, 0⟩, ⟨0, 1⟩] : List Coordinates).getD (r.optimizedOrder.getD (i + 1) 0) ⟨0, 0⟩)
               .cycling } : Segment)) ∧
      r.totalDistance = (r.segments.map Segment.distance).sum ∧
      r.totalDuration = (r.segments.map Segment.duration).sum :=
  segments_consecutive_and_totals [⟨0, 0⟩, ⟨0, 1⟩] .cycling (by norm_num) (by norm_num)

end UNCPNavigate
